import Mathlib

/-!
Verification development for the shared cache client and rate limiter of the
`ai-customer-service-bot` repository
(`src/lambda/layers/common/python/shared/cache_client.py`).

The embedding models:
- Python values exchanged with the cache (`PyVal`), the JSON data model
  (`JVal`), `json.dumps(value, default=str)` (`dumps`) and `json.loads`
  applied to a stored JSON document (`jsonToPy`);
- the Redis backend as a key/value store of entries with optional absolute
  expiry times plus a current clock (`Redis`), with the primitives used by
  the client: GET, SETEX, DEL, INCRBY, EXPIRE;
- the `RedisCache` methods (`get`, `set`, `delete`, `increment`) and
  `RateLimiter.is_allowed`, with transient backend errors injected through
  explicit Boolean flags, one per backend call a method makes.  Each method
  returns a `PyRun`: the value returned to the caller (`Except.error` would
  mean an exception propagated out of the method), the `_redis_client`
  field after the call, the backend state after the call, and the list of
  backend commands issued during the call.
-/

/-- The JSON data model: what `json.dumps` produces and `json.loads` parses.
Numbers are restricted to integers, which is all this component stores. -/
inductive JVal where
  | null
  | bool (b : Bool)
  | int (n : Int)
  | str (s : String)
  | arr (xs : List JVal)
  | obj (kvs : List (String × JVal))
deriving Repr

/-- Python values handed to `RedisCache.set` / returned by `RedisCache.get`.
`objV s` stands for an arbitrary object that is not JSON serializable and
whose `str()` form is `s` (for example a `datetime`); `tupleV` is a tuple,
which `json.dumps` serializes like a list but which may also appear as a
dict key, where `json.dumps` rejects it. -/
inductive PyVal where
  | noneV
  | boolV (b : Bool)
  | intV (n : Int)
  | strV (s : String)
  | listV (xs : List PyVal)
  | tupleV (xs : List PyVal)
  | dictV (kvs : List (PyVal × PyVal))
  | objV (s : String)
deriving Repr

mutual

/-- `json.loads` applied to a stored JSON document: arrays become lists,
objects become dicts with string keys. -/
def jsonToPy : JVal → PyVal
  | .null => .noneV
  | .bool b => .boolV b
  | .int n => .intV n
  | .str s => .strV s
  | .arr xs => .listV (jsonToPyList xs)
  | .obj kvs => .dictV (jsonToPyKvs kvs)

def jsonToPyList : List JVal → List PyVal
  | [] => []
  | x :: xs => jsonToPy x :: jsonToPyList xs

def jsonToPyKvs : List (String × JVal) → List (PyVal × PyVal)
  | [] => []
  | (k, v) :: kvs => (.strV k, jsonToPy v) :: jsonToPyKvs kvs

end

/-- How `json.dumps` renders a dict key: keys of a basic type
(str, int, bool, None) are coerced to strings; any other key raises
`TypeError` — the `default=` hook is not consulted for keys. -/
def keyStr : PyVal → Except Unit String
  | .strV s => .ok s
  | .intV n => .ok (toString n)
  | .boolV b => .ok (if b then "true" else "false")
  | .noneV => .ok "null"
  | _ => .error ()

mutual

/-- `json.dumps(value, default=str)`: tuples serialize like lists, dicts
require basic-type keys, and any other unsupported object is coerced to its
`str()` form by the `default=str` hook. An `Except.error` is a `TypeError`
raised inside `json.dumps`. -/
def dumps : PyVal → Except Unit JVal
  | .noneV => .ok .null
  | .boolV b => .ok (.bool b)
  | .intV n => .ok (.int n)
  | .strV s => .ok (.str s)
  | .listV xs =>
    match dumpsList xs with
    | .ok js => .ok (.arr js)
    | .error e => .error e
  | .tupleV xs =>
    match dumpsList xs with
    | .ok js => .ok (.arr js)
    | .error e => .error e
  | .dictV kvs =>
    match dumpsKvs kvs with
    | .ok js => .ok (.obj js)
    | .error e => .error e
  | .objV s => .ok (.str s)

def dumpsList : List PyVal → Except Unit (List JVal)
  | [] => .ok []
  | x :: xs =>
    match dumps x with
    | .error e => .error e
    | .ok j =>
      match dumpsList xs with
      | .error e => .error e
      | .ok js => .ok (j :: js)

def dumpsKvs : List (PyVal × PyVal) → Except Unit (List (String × JVal))
  | [] => .ok []
  | (k, v) :: kvs =>
    match keyStr k with
    | .error e => .error e
    | .ok ks =>
      match dumps v with
      | .error e => .error e
      | .ok jv =>
        match dumpsKvs kvs with
        | .error e => .error e
        | .ok js => .ok ((ks, jv) :: js)

end

mutual

/-- A Python value lying in the image of `json.loads`: built from None,
booleans, integers, strings, lists, and dicts with string keys. For such
values the serialize/deserialize round trip is the identity, which is the
deep-equality sense of "JSON-serializable value" in the specification. -/
def isJsonValue : PyVal → Bool
  | .noneV => true
  | .boolV _ => true
  | .intV _ => true
  | .strV _ => true
  | .listV xs => isJsonValueList xs
  | .dictV kvs => isJsonValueKvs kvs
  | .tupleV _ => false
  | .objV _ => false

def isJsonValueList : List PyVal → Bool
  | [] => true
  | x :: xs => isJsonValue x && isJsonValueList xs

def isJsonValueKvs : List (PyVal × PyVal) → Bool
  | [] => true
  | (k, v) :: kvs =>
    (match k with
     | .strV _ => true
     | _ => false) && isJsonValue v && isJsonValueKvs kvs

end

/-- A value stored under a key in the backend: either the serialized JSON
document written by `SETEX`, an integer counter written by `INCRBY`, or a
raw string that is neither an integer nor valid JSON (so that `json.loads`
raises on it and `INCRBY` rejects it). -/
inductive RVal where
  | json (j : JVal)
  | int (n : Int)
  | malformed
deriving Repr

/-- How `INCRBY` reads an existing stored value: an integer counter, or a
serialized JSON integer (whose text form is a plain decimal), parses; any
other stored string makes `INCRBY` raise. -/
def RVal.asInt : RVal → Option Int
  | .int n => some n
  | .json (.int n) => some n
  | _ => none

/-- One key's entry in the backend: its value and its optional absolute
expiry instant (`none` = no TTL set, the key never expires). -/
structure Entry where
  val : RVal
  expiresAt : Option Int
deriving Repr

/-- An entry is live at instant `now` if it has no expiry or its expiry is
still in the future. -/
def Entry.liveAt (e : Entry) (now : Int) : Bool :=
  match e.expiresAt with
  | none => true
  | some t => now < t

/-- The Redis backend: the keyspace (first binding for a key wins) and the
current clock instant. -/
structure Redis where
  store : List (String × Entry)
  now : Int

/-- The same keyspace observed at another instant (time passing between two
client calls). -/
def Redis.atTime (r : Redis) (t : Int) : Redis :=
  ⟨r.store, t⟩

/-- Look a key up, respecting expiry: an expired entry is gone. -/
def Redis.lookupLive (r : Redis) (k : String) : Option Entry :=
  match r.store.lookup k with
  | some e => if e.liveAt r.now then some e else none
  | none => none

/-- Bind `k` to `e`, shadowing any previous binding. -/
def Redis.withEntry (r : Redis) (k : String) (e : Entry) : Redis :=
  ⟨(k, e) :: r.store, r.now⟩

/-- Remove every binding of `k`. -/
def Redis.removeKey (r : Redis) (k : String) : Redis :=
  ⟨r.store.filter (fun p => p.1 != k), r.now⟩

/-- `INCRBY key amount`: a missing (or expired) key counts as 0 and the new
key carries no TTL; an existing integer value is incremented in place,
keeping its expiry; a non-integer value makes the command raise. -/
def redisIncr (r : Redis) (k : String) (amount : Int) : Except Unit (Int × Redis) :=
  match r.lookupLive k with
  | none => .ok (amount, r.withEntry k ⟨.int amount, none⟩)
  | some e =>
    match e.val.asInt with
    | none => .error ()
    | some n => .ok (n + amount, r.withEntry k ⟨.int (n + amount), e.expiresAt⟩)

/-- `EXPIRE key ttl`: no effect on a missing key; a non-positive ttl deletes
the key at once; otherwise the key's expiry becomes `now + ttl`. -/
def redisExpire (r : Redis) (k : String) (ttl : Int) : Redis :=
  match r.lookupLive k with
  | none => r
  | some e =>
    if ttl ≤ 0 then r.removeKey k
    else r.withEntry k ⟨e.val, some (r.now + ttl)⟩

/-- `SETEX key ttl value`: raises on a non-positive ttl, otherwise stores
the serialized document with expiry `now + ttl`. -/
def redisSetex (r : Redis) (k : String) (ttl : Int) (j : JVal) : Except Unit Redis :=
  if ttl ≤ 0 then .error ()
  else .ok (r.withEntry k ⟨.json j, some (r.now + ttl)⟩)

/-- A backend command issued by the client during one method call. -/
inductive BCall where
  | bget (k : String)
  | bsetex (k : String) (ttl : Int) (j : JVal)
  | bdel (k : String)
  | bincr (k : String) (amount : Int)
  | bexpire (k : String) (ttl : Int)
  | bping
deriving Repr

/-- The observable outcome of one client method call: the Python-level
return (`Except.error` would be an exception escaping the method), the
`_redis_client` field after the call, the backend state after the call, and
the backend commands issued. -/
structure PyRun (α : Type) where
  ret : Except Unit α
  client : Bool
  redis : Redis
  calls : List BCall

/-- Truthiness of the `ttl: int | None` parameter in `if ttl and ...`:
`None` and `0` are falsy, every other integer is truthy. -/
def ttlTruthy : Option Int → Bool
  | none => false
  | some n => !(n == 0)

/-- The `try:` block of `RedisCache.get`: the backend `GET` (which may raise
transiently, flag `e`), the `if value:` falsiness test, and `json.loads` on
the fetched text (which raises on a malformed payload). -/
def getTry (r : Redis) (e : Bool) (key : String) : Except Unit (Option PyVal) :=
  if e then .error ()
  else
    match r.lookupLive key with
    | none => .ok none
    | some en =>
      match en.val with
      | .json j => .ok (some (jsonToPy j))
      | .int n => .ok (some (.intV n))
      | .malformed => .error ()

/-- `RedisCache.get`: `None` when the client is disabled; otherwise the
`try:` body with any exception logged and absorbed into `None`. -/
def RedisCache.get (client : Bool) (r : Redis) (e : Bool) (key : String) :
    PyRun (Option PyVal) :=
  if !client then ⟨.ok none, client, r, []⟩
  else
    match getTry r e key with
    | .ok v => ⟨.ok v, client, r, [.bget key]⟩
    | .error _ => ⟨.ok none, client, r, [.bget key]⟩

/-- The `try:` block of `RedisCache.set`: `json.dumps(value, default=str)`
(raising before any backend call on an unserializable value), then `SETEX`
(transient-error flag `e`; also raises on a non-positive ttl). -/
def setTry (r : Redis) (e : Bool) (key : String) (value : PyVal) (ttl : Int) :
    Except Unit Redis × List BCall :=
  match dumps value with
  | .error _ => (.error (), [])
  | .ok j =>
    if e then (.error (), [.bsetex key ttl j])
    else
      match redisSetex r key ttl j with
      | .ok r' => (.ok r', [.bsetex key ttl j])
      | .error _ => (.error (), [.bsetex key ttl j])

/-- `RedisCache.set`: `False` when the client is disabled; otherwise the
`try:` body, returning `True` on success, with any exception logged and
absorbed into `False`. -/
def RedisCache.set (client : Bool) (r : Redis) (e : Bool) (key : String)
    (value : PyVal) (ttl : Int) : PyRun Bool :=
  if !client then ⟨.ok false, client, r, []⟩
  else
    match setTry r e key value ttl with
    | (.ok r', cs) => ⟨.ok true, client, r', cs⟩
    | (.error _, cs) => ⟨.ok false, client, r, cs⟩

/-- `RedisCache.delete`: `False` when the client is disabled; otherwise the
backend `DEL` (transient-error flag `e`), returning `True` on success. -/
def RedisCache.delete (client : Bool) (r : Redis) (e : Bool) (key : String) :
    PyRun Bool :=
  if !client then ⟨.ok false, client, r, []⟩
  else
    if e then ⟨.ok false, client, r, [.bdel key]⟩
    else ⟨.ok true, client, r.removeKey key, [.bdel key]⟩

/-- The `try:` block of `RedisCache.increment`: `INCRBY` (transient-error
flag `eI`; also raises on a non-integer stored value), then, only when
`ttl` is truthy and the returned value equals the increment amount,
`EXPIRE` (transient-error flag `eE`). The backend state is threaded even
through a raise, because a failed `EXPIRE` happens after the increment
already took effect. -/
def incrTry (r : Redis) (eI eE : Bool) (key : String) (amount : Int)
    (ttl : Option Int) : Except Unit Int × Redis × List BCall :=
  if eI then (.error (), r, [.bincr key amount])
  else
    match redisIncr r key amount with
    | .error _ => (.error (), r, [.bincr key amount])
    | .ok (v, r') =>
      if ttlTruthy ttl && (v == amount) then
        if eE then (.error (), r', [.bincr key amount, .bexpire key (ttl.getD 0)])
        else (.ok v, redisExpire r' key (ttl.getD 0),
              [.bincr key amount, .bexpire key (ttl.getD 0)])
      else (.ok v, r', [.bincr key amount])

/-- `RedisCache.increment`: `None` when the client is disabled; otherwise
the `try:` body, returning the new counter value, with any exception logged
and absorbed into `None`. -/
def RedisCache.increment (client : Bool) (r : Redis) (eI eE : Bool) (key : String)
    (amount : Int) (ttl : Option Int) : PyRun (Option Int) :=
  if !client then ⟨.ok none, client, r, []⟩
  else
    match incrTry r eI eE key amount ttl with
    | (.ok v, r', cs) => ⟨.ok (some v), client, r', cs⟩
    | (.error _, r', cs) => ⟨.ok none, client, r', cs⟩

/-- The `try:` body of `RedisCache._connect`: build the client and `ping`;
`connectOk` says whether the handshake succeeds. -/
def RedisCache.connectTry (connectOk : Bool) : Except Unit Unit :=
  if connectOk then .ok () else .error ()

/-- `RedisCache()` construction on the process-wide singleton: `__init__`
returns at once when the redis library is unavailable; otherwise, whenever
the `_redis_client` field is `None` — including on a re-construction after
a failed earlier attempt — it runs `_connect`, whose `try/except` leaves
the field `None` on failure. The result is the `_redis_client` field after
construction and the backend handshake calls issued; `Except.error` would
be an exception escaping the constructor. -/
def RedisCache.construct (avail : Bool) (client : Bool) (connectOk : Bool) :
    Except Unit (Bool × List BCall) :=
  if !avail then .ok (client, [])
  else if !client then
    match RedisCache.connectTry connectOk with
    | .ok _ => .ok (true, [.bping])
    | .error _ => .ok (false, [.bping])
  else .ok (client, [])

/-- `RateLimiter.is_allowed(identifier, max_requests, window_seconds)`:
build the namespaced key, call `increment` with `ttl = window_seconds`,
fail open on `None`, otherwise allow iff the count is within the limit.
The method has no `try/except` of its own, so an exception from the cache
call would propagate. -/
def RateLimiter.isAllowed (client : Bool) (r : Redis) (eI eE : Bool)
    (identifier : String) (maxRequests : Int) (windowSeconds : Int) : PyRun Bool :=
  let key := "ratelimit:" ++ identifier
  let out := RedisCache.increment client r eI eE key 1 (some windowSeconds)
  match out.ret with
  | .error e => ⟨.error e, out.client, out.redis, out.calls⟩
  | .ok none => ⟨.ok true, out.client, out.redis, out.calls⟩
  | .ok (some c) => ⟨.ok (decide (c ≤ maxRequests)), out.client, out.redis, out.calls⟩

/-- `n` successive calls to `RateLimiter.is_allowed` with the same
parameters and a reachable, error-free backend, in rapid succession (the
clock does not advance between calls): the list of answers and the final
backend state. -/
def isAllowedRun (client : Bool) (identifier : String) (maxR win : Int) :
    Nat → Redis → List Bool × Redis
  | 0, r => ([], r)
  | k + 1, r =>
    let out := RateLimiter.isAllowed client r false false identifier maxR win
    match out.ret with
    | .ok b =>
      let rest := isAllowedRun client identifier maxR win k out.redis
      (b :: rest.1, rest.2)
    | .error _ => ([], out.redis)

/-! ### Helper lemmas -/

theorem lookup_withEntry_self (r : Redis) (k : String) (e : Entry) :
    (r.withEntry k e).store.lookup k = some e := by
  simp [Redis.withEntry, List.lookup]

theorem now_withEntry (r : Redis) (k : String) (e : Entry) :
    (r.withEntry k e).now = r.now := rfl

theorem increment_ret_ok (client : Bool) (r : Redis) (eI eE : Bool) (key : String)
    (amount : Int) (ttl : Option Int) :
    ∃ v, (RedisCache.increment client r eI eE key amount ttl).ret = .ok v := by
  cases client with
  | false => exact ⟨none, rfl⟩
  | true =>
    rcases h : incrTry r eI eE key amount ttl with ⟨res, r', cs⟩
    cases res with
    | ok v => exact ⟨some v, by simp [RedisCache.increment, h]⟩
    | error err => exact ⟨none, by simp [RedisCache.increment, h]⟩

theorem get_client_eq (client : Bool) (r : Redis) (e : Bool) (key : String) :
    (RedisCache.get client r e key).client = client := by
  cases client with
  | false => rfl
  | true => cases h : getTry r e key <;> simp [RedisCache.get, h]

theorem set_client_eq (client : Bool) (r : Redis) (e : Bool) (key : String)
    (value : PyVal) (ttl : Int) :
    (RedisCache.set client r e key value ttl).client = client := by
  cases client with
  | false => rfl
  | true =>
    rcases h : setTry r e key value ttl with ⟨res, cs⟩
    cases res <;> simp [RedisCache.set, h]

theorem delete_client_eq (client : Bool) (r : Redis) (e : Bool) (key : String) :
    (RedisCache.delete client r e key).client = client := by
  cases client <;> cases e <;> rfl

theorem increment_client_eq (client : Bool) (r : Redis) (eI eE : Bool) (key : String)
    (amount : Int) (ttl : Option Int) :
    (RedisCache.increment client r eI eE key amount ttl).client = client := by
  cases client with
  | false => rfl
  | true =>
    rcases h : incrTry r eI eE key amount ttl with ⟨res, r', cs⟩
    cases res <;> simp [RedisCache.increment, h]

/-! ### Claim theorems -/

/-- C2: whenever the cache handle's `increment` yields no result, `is_allowed`
returns `true` (fail-open), whatever the identifier, the limits, or the
accumulated count; and with the backend unreachable (client disabled) every
call in a sequence of `is_allowed` calls returns `true`. -/
theorem fail_open_on_no_result :
    (∀ (client : Bool) (r : Redis) (eI eE : Bool) (id : String) (maxR win : Int),
        (RedisCache.increment client r eI eE ("ratelimit:" ++ id) 1 (some win)).ret
          = .ok none →
        (RateLimiter.isAllowed client r eI eE id maxR win).ret = .ok true) ∧
    (∀ (r : Redis) (id : String) (maxR win : Int) (n : Nat),
        (isAllowedRun false id maxR win n r).1 = List.replicate n true) := by
  constructor
  · intro client r eI eE id maxR win h
    simp [RateLimiter.isAllowed, h]
  · intro r id maxR win n
    induction n generalizing r with
    | zero => rfl
    | succ k ih =>
      rw [isAllowedRun]
      simp [RateLimiter.isAllowed, RedisCache.increment, ih, List.replicate_succ]

/-- C2 witness: a transient backend error on the increment of a single call
makes that call return `true`. -/
theorem fail_open_on_no_result_witness :
    (RateLimiter.isAllowed true ⟨[], 0⟩ true false "u" 3 60).ret = .ok true :=
  fail_open_on_no_result.1 true ⟨[], 0⟩ true false "u" 3 60 rfl

/-- C3 counterexample: after a failed initial connection attempt the handle
is disabled (`_redis_client = None`), but re-running the constructor on the
singleton issues a fresh connection attempt (a handshake call is made) and
can even re-enable the handle — contradicting "no re-construction of the
handle attempts to reconnect". -/
theorem reconstruction_reattempts_connection :
    RedisCache.construct true false false = .ok (false, [.bping]) ∧
    RedisCache.construct true false true = .ok (true, [.bping]) :=
  ⟨rfl, rfl⟩

/-- C3 amended: after a failed initial connection attempt, no cache or
limiter *operation* attempts to reconnect — in disabled mode every
operation leaves `_redis_client` as `None` and issues no backend call; but
re-invoking the constructor while `_redis_client` is `None` does re-attempt
the connection handshake. -/
theorem operations_never_reconnect :
    ∀ (r : Redis) (e eI eE : Bool) (key : String) (value : PyVal) (ttl amount : Int)
      (ttlO : Option Int) (id : String) (maxR win : Int) (connectOk : Bool),
      (RedisCache.get false r e key).client = false ∧
      (RedisCache.get false r e key).calls = [] ∧
      (RedisCache.set false r e key value ttl).client = false ∧
      (RedisCache.set false r e key value ttl).calls = [] ∧
      (RedisCache.delete false r e key).client = false ∧
      (RedisCache.delete false r e key).calls = [] ∧
      (RedisCache.increment false r eI eE key amount ttlO).client = false ∧
      (RedisCache.increment false r eI eE key amount ttlO).calls = [] ∧
      (RateLimiter.isAllowed false r eI eE id maxR win).client = false ∧
      (RateLimiter.isAllowed false r eI eE id maxR win).calls = [] ∧
      (∃ c, RedisCache.construct true false connectOk = .ok (c, [.bping])) := by
  intro r e eI eE key value ttl amount ttlO id maxR win connectOk
  refine ⟨rfl, rfl, rfl, rfl, rfl, rfl, rfl, rfl, rfl, rfl, ?_⟩
  cases connectOk with
  | false => exact ⟨false, rfl⟩
  | true => exact ⟨true, rfl⟩

/-- C4 counterexample: with `ttl = 0` (an integer the caller can pass), the
increment that creates the counter returns a value equal to the increment
amount, yet no `EXPIRE` is issued and the created counter has no expiry —
the TTL is not armed on the creating increment, because `if ttl and ...`
treats `0` (like `None`) as falsy. -/
theorem falsy_ttl_creating_increment_not_armed :
    (RedisCache.increment true ⟨[], 0⟩ false false "k" 1 (some 0)).ret = .ok (some 1) ∧
    (RedisCache.increment true ⟨[], 0⟩ false false "k" 1 (some 0)).calls
      = [.bincr "k" 1] ∧
    (RedisCache.increment true ⟨[], 0⟩ false false "k" 1 (some 0)).redis.store.lookup "k"
      = some ⟨.int 1, none⟩ :=
  ⟨rfl, rfl, by simp [RedisCache.increment, incrTry, redisIncr, Redis.lookupLive,
                      ttlTruthy, lookup_withEntry_self]⟩

/-- C5: for every input and every backend behavior — transient errors on any
backend call, a malformed cached payload, a non-serializable value, the
redis library absent, a failing handshake — construction and each of `get`,
`set`, `delete`, `increment`, and `is_allowed` return normally: no
exception propagates to the caller. -/
theorem core_never_raises :
    ∀ (avail client connectOk : Bool) (r : Redis) (e eI eE : Bool) (key : String)
      (value : PyVal) (ttl amount : Int) (ttlO : Option Int) (id : String)
      (maxR win : Int),
      (∃ x, RedisCache.construct avail client connectOk = .ok x) ∧
      (∃ v, (RedisCache.get client r e key).ret = .ok v) ∧
      (∃ v, (RedisCache.set client r e key value ttl).ret = .ok v) ∧
      (∃ v, (RedisCache.delete client r e key).ret = .ok v) ∧
      (∃ v, (RedisCache.increment client r eI eE key amount ttlO).ret = .ok v) ∧
      (∃ v, (RateLimiter.isAllowed client r eI eE id maxR win).ret = .ok v) := by
  intro avail client connectOk r e eI eE key value ttl amount ttlO id maxR win
  refine ⟨?_, ?_, ?_, ?_, ?_, ?_⟩
  · cases avail <;> cases client <;> cases connectOk <;> exact ⟨_, rfl⟩
  · cases client with
    | false => exact ⟨none, rfl⟩
    | true =>
      cases h : getTry r e key with
      | ok v => exact ⟨v, by simp [RedisCache.get, h]⟩
      | error u => exact ⟨none, by simp [RedisCache.get, h]⟩
  · cases client with
    | false => exact ⟨false, rfl⟩
    | true =>
      rcases h : setTry r e key value ttl with ⟨res, cs⟩
      cases res with
      | ok r2 => exact ⟨true, by simp [RedisCache.set, h]⟩
      | error u => exact ⟨false, by simp [RedisCache.set, h]⟩
  · cases client <;> cases e <;> exact ⟨_, rfl⟩
  · exact increment_ret_ok client r eI eE key amount ttlO
  · obtain ⟨v, hv⟩ := increment_ret_ok client r eI eE ("ratelimit:" ++ id) 1 (some win)
    cases v with
    | none => exact ⟨true, by simp [RateLimiter.isAllowed, hv]⟩
    | some c => exact ⟨decide (c ≤ maxR), by simp [RateLimiter.isAllowed, hv]⟩

/-- C6: in disabled mode (`_redis_client = None`) every operation is a no-op
that issues no backend command, leaves the backend untouched, and returns
its absence/failure sentinel: `get` returns `None`, `set` returns `False`,
`delete` returns `False`, `increment` returns `None`. -/
theorem disabled_mode_noop :
    ∀ (r : Redis) (e eI eE : Bool) (key : String) (value : PyVal)
      (ttl amount : Int) (ttlO : Option Int),
      RedisCache.get false r e key = ⟨.ok none, false, r, []⟩ ∧
      RedisCache.set false r e key value ttl = ⟨.ok false, false, r, []⟩ ∧
      RedisCache.delete false r e key = ⟨.ok false, false, r, []⟩ ∧
      RedisCache.increment false r eI eE key amount ttlO = ⟨.ok none, false, r, []⟩ :=
  fun _ _ _ _ _ _ _ _ _ => ⟨rfl, rfl, rfl, rfl⟩

/-- C8: a transient backend error during a single `get`, `set`, `delete`, or
`increment` call makes only that call return its no-effect sentinel and
leaves the backend state unchanged; and no call — failing or not — ever
changes the handle's `_redis_client` field, so subsequent calls operate in
the mode the handle was already in. -/
theorem transient_error_single_call :
    ∀ (client : Bool) (r : Redis) (e eI eE : Bool) (key : String) (value : PyVal)
      (ttl amount : Int) (ttlO : Option Int),
      ((RedisCache.get client r true key).ret = .ok none ∧
        (RedisCache.get client r true key).redis = r) ∧
      ((RedisCache.set client r true key value ttl).ret = .ok false ∧
        (RedisCache.set client r true key value ttl).redis = r) ∧
      ((RedisCache.delete client r true key).ret = .ok false ∧
        (RedisCache.delete client r true key).redis = r) ∧
      ((RedisCache.increment client r true eE key amount ttlO).ret = .ok none ∧
        (RedisCache.increment client r true eE key amount ttlO).redis = r) ∧
      (RedisCache.get client r e key).client = client ∧
      (RedisCache.set client r e key value ttl).client = client ∧
      (RedisCache.delete client r e key).client = client ∧
      (RedisCache.increment client r eI eE key amount ttlO).client = client := by
  intro client r e eI eE key value ttl amount ttlO
  refine ⟨?_, ?_, ?_, ?_, get_client_eq client r e key,
          set_client_eq client r e key value ttl,
          delete_client_eq client r e key,
          increment_client_eq client r eI eE key amount ttlO⟩
  · cases client with
    | false => exact ⟨rfl, rfl⟩
    | true => exact ⟨by simp [RedisCache.get, getTry], by simp [RedisCache.get, getTry]⟩
  · cases client with
    | false => exact ⟨rfl, rfl⟩
    | true =>
      cases h : dumps value with
      | ok j => exact ⟨by simp [RedisCache.set, setTry, h], by simp [RedisCache.set, setTry, h]⟩
      | error err =>
        exact ⟨by simp [RedisCache.set, setTry, h], by simp [RedisCache.set, setTry, h]⟩
  · cases client <;> exact ⟨rfl, rfl⟩
  · cases client with
    | false => exact ⟨rfl, rfl⟩
    | true => exact ⟨by simp [RedisCache.increment, incrTry], by simp [RedisCache.increment, incrTry]⟩

/-- C10 counterexample: with the backend reachable and no transient error,
`set` of a dict whose key is a tuple returns `False` — `json.dumps` raises
`TypeError` on non-basic dict keys even with `default=str`, because the
`default` hook is not applied to keys — and no backend command is issued,
so the failure comes from serialization alone. The "serialization failure
on write" branch is therefore reachable. -/
theorem set_serialization_failure_reachable :
    (RedisCache.set true ⟨[], 0⟩ false "k" (.dictV [(.tupleV [], .strV "x")]) 300).ret
      = .ok false ∧
    (RedisCache.set true ⟨[], 0⟩ false "k" (.dictV [(.tupleV [], .strV "x")]) 300).calls
      = [] :=
  ⟨rfl, rfl⟩

mutual

theorem dumps_roundtrip (v : PyVal) (h : isJsonValue v = true) :
    ∃ j, dumps v = .ok j ∧ jsonToPy j = v :=
  match v, h with
  | .noneV, _ => ⟨.null, rfl, rfl⟩
  | .boolV b, _ => ⟨.bool b, rfl, rfl⟩
  | .intV n, _ => ⟨.int n, rfl, rfl⟩
  | .strV s, _ => ⟨.str s, rfl, rfl⟩
  | .listV xs, h => by
    obtain ⟨js, h1, h2⟩ := dumpsList_roundtrip xs (by simpa [isJsonValue] using h)
    exact ⟨.arr js, by simp [dumps, h1], by simp [jsonToPy, h2]⟩
  | .dictV kvs, h => by
    obtain ⟨js, h1, h2⟩ := dumpsKvs_roundtrip kvs (by simpa [isJsonValue] using h)
    exact ⟨.obj js, by simp [dumps, h1], by simp [jsonToPy, h2]⟩

theorem dumpsList_roundtrip (xs : List PyVal) (h : isJsonValueList xs = true) :
    ∃ js, dumpsList xs = .ok js ∧ jsonToPyList js = xs :=
  match xs, h with
  | [], _ => ⟨[], rfl, rfl⟩
  | x :: xs, h => by
    rw [isJsonValueList, Bool.and_eq_true] at h
    obtain ⟨j, hj1, hj2⟩ := dumps_roundtrip x h.1
    obtain ⟨js, hs1, hs2⟩ := dumpsList_roundtrip xs h.2
    exact ⟨j :: js, by simp [dumpsList, hj1, hs1], by simp [jsonToPyList, hj2, hs2]⟩

theorem dumpsKvs_roundtrip (kvs : List (PyVal × PyVal)) (h : isJsonValueKvs kvs = true) :
    ∃ js, dumpsKvs kvs = .ok js ∧ jsonToPyKvs js = kvs :=
  match kvs, h with
  | [], _ => ⟨[], rfl, rfl⟩
  | (.strV s, v) :: kvs, h => by
    rw [isJsonValueKvs, Bool.and_eq_true, Bool.and_eq_true] at h
    obtain ⟨⟨-, hv⟩, hk⟩ := h
    obtain ⟨jv, hv1, hv2⟩ := dumps_roundtrip v hv
    obtain ⟨js, hs1, hs2⟩ := dumpsKvs_roundtrip kvs hk
    exact ⟨(s, jv) :: js, by simp [dumpsKvs, keyStr, hv1, hs1],
           by simp [jsonToPyKvs, hv2, hs2]⟩
  | (.noneV, v) :: kvs, h => by simp [isJsonValueKvs] at h
  | (.boolV b, v) :: kvs, h => by simp [isJsonValueKvs] at h
  | (.intV n, v) :: kvs, h => by simp [isJsonValueKvs] at h
  | (.listV xs, v) :: kvs, h => by simp [isJsonValueKvs] at h
  | (.tupleV xs, v) :: kvs, h => by simp [isJsonValueKvs] at h
  | (.dictV xs, v) :: kvs, h => by simp [isJsonValueKvs] at h
  | (.objV s, v) :: kvs, h => by simp [isJsonValueKvs] at h

end

/-- C7: for every key, every JSON-serializable value and every positive ttl,
with the backend reachable: `set` succeeds, a `get` performed before the ttl
elapses returns a value deep-equal to the one stored, and a `get` after the
ttl has elapsed returns absent. -/
theorem set_get_roundtrip_ttl (r : Redis) (key : String) (v : PyVal) (ttl : Int)
    (hv : isJsonValue v = true) (ht : 0 < ttl) :
    (RedisCache.set true r false key v ttl).ret = .ok true ∧
    (∀ t : Int, t < r.now + ttl →
      (RedisCache.get true (((RedisCache.set true r false key v ttl).redis).atTime t)
          false key).ret = .ok (some v)) ∧
    (∀ t : Int, r.now + ttl ≤ t →
      (RedisCache.get true (((RedisCache.set true r false key v ttl).redis).atTime t)
          false key).ret = .ok none) := by
  obtain ⟨j, hj1, hj2⟩ := dumps_roundtrip v hv
  have hnle : ¬ ttl ≤ 0 := by omega
  have hset : RedisCache.set true r false key v ttl =
      ⟨.ok true, true, r.withEntry key ⟨.json j, some (r.now + ttl)⟩, [.bsetex key ttl j]⟩ := by
    simp [RedisCache.set, setTry, hj1, redisSetex, hnle]
  refine ⟨by rw [hset], ?_, ?_⟩
  · intro t htlt
    rw [hset]
    simp [RedisCache.get, getTry, Redis.lookupLive, lookup_withEntry_self, Entry.liveAt,
          Redis.atTime, htlt, hj2]
  · intro t htge
    rw [hset]
    have hnlt : ¬ t < r.now + ttl := not_lt.mpr htge
    simp [RedisCache.get, getTry, Redis.lookupLive, lookup_withEntry_self, Entry.liveAt,
          Redis.atTime, hnlt]

/-- C7 witness: storing `{"a": 1}` for 300 time units at instant 0, reading
it back at instant 10 returns it deep-equal, and at instant 300 it is gone. -/
theorem set_get_roundtrip_ttl_witness :
    (RedisCache.set true ⟨[], 0⟩ false "k" (.dictV [(.strV "a", .intV 1)]) 300).ret
      = .ok true ∧
    (RedisCache.get true (((RedisCache.set true ⟨[], 0⟩ false "k"
        (.dictV [(.strV "a", .intV 1)]) 300).redis).atTime 10) false "k").ret
      = .ok (some (.dictV [(.strV "a", .intV 1)])) ∧
    (RedisCache.get true (((RedisCache.set true ⟨[], 0⟩ false "k"
        (.dictV [(.strV "a", .intV 1)]) 300).redis).atTime 300) false "k").ret
      = .ok none := by
  have h := set_get_roundtrip_ttl ⟨[], 0⟩ "k" (.dictV [(.strV "a", .intV 1)]) 300
    rfl (by decide)
  exact ⟨h.1, h.2.1 10 (by decide), h.2.2 300 (by decide)⟩

theorem increment_existing (r : Redis) (key : String) (amount c : Int)
    (topt : Option Int) (ttl : Option Int) (hne : (c + amount == amount) = false)
    (hl : r.store.lookup key = some ⟨.int c, topt⟩)
    (hlive : Entry.liveAt ⟨.int c, topt⟩ r.now = true) :
    RedisCache.increment true r false false key amount ttl =
      ⟨.ok (some (c + amount)), true, r.withEntry key ⟨.int (c + amount), topt⟩,
       [.bincr key amount]⟩ := by
  have hlook : r.lookupLive key = some ⟨.int c, topt⟩ := by
    simp [Redis.lookupLive, hl, hlive]
  simp [RedisCache.increment, incrTry, redisIncr, hlook, RVal.asInt, hne]

theorem isAllowed_step (r : Redis) (id : String) (maxR win c : Int) (topt : Option Int)
    (hc : c ≠ 0)
    (hl : r.store.lookup ("ratelimit:" ++ id) = some ⟨.int c, topt⟩)
    (hlive : Entry.liveAt ⟨.int c, topt⟩ r.now = true) :
    RateLimiter.isAllowed true r false false id maxR win =
      ⟨.ok (decide (c + 1 ≤ maxR)), true,
       r.withEntry ("ratelimit:" ++ id) ⟨.int (c + 1), topt⟩,
       [.bincr ("ratelimit:" ++ id) 1]⟩ := by
  have hne : (c + 1 == (1 : Int)) = false := by
    simp only [beq_eq_false_iff_ne, ne_eq]
    omega
  rw [RateLimiter.isAllowed,
      increment_existing r ("ratelimit:" ++ id) 1 c topt (some win) hne hl hlive]

theorem increment_fresh_pos (r : Redis) (key : String) (t : Int) (ht : 0 < t)
    (hl : r.lookupLive key = none) :
    RedisCache.increment true r false false key 1 (some t) =
      ⟨.ok (some 1), true,
       (r.withEntry key ⟨.int 1, none⟩).withEntry key ⟨.int 1, some (r.now + t)⟩,
       [.bincr key 1, .bexpire key t]⟩ := by
  have ht' : (t == (0 : Int)) = false := by
    simp only [beq_eq_false_iff_ne, ne_eq]
    omega
  have hnle : ¬ t ≤ 0 := by omega
  have hincr : redisIncr r key 1 = .ok (1, r.withEntry key ⟨.int 1, none⟩) := by
    unfold redisIncr
    rw [hl]
  have hlook1 : (r.withEntry key ⟨.int 1, none⟩).lookupLive key
      = some ⟨.int 1, none⟩ := by
    unfold Redis.lookupLive
    rw [lookup_withEntry_self]
    rfl
  have hexp : redisExpire (r.withEntry key ⟨.int 1, none⟩) key t
      = (r.withEntry key ⟨.int 1, none⟩).withEntry key ⟨.int 1, some (r.now + t)⟩ := by
    unfold redisExpire
    rw [hlook1]
    simp [hnle, now_withEntry]
  simp [RedisCache.increment, incrTry, hincr, ttlTruthy, ht', hexp]

theorem isAllowed_step_fresh_pos (r : Redis) (id : String) (maxR win : Int)
    (hwin : 0 < win) (hl : r.lookupLive ("ratelimit:" ++ id) = none) :
    RateLimiter.isAllowed true r false false id maxR win =
      ⟨.ok (decide ((1 : Int) ≤ maxR)), true,
       (r.withEntry ("ratelimit:" ++ id) ⟨.int 1, none⟩).withEntry ("ratelimit:" ++ id)
         ⟨.int 1, some (r.now + win)⟩,
       [.bincr ("ratelimit:" ++ id) 1, .bexpire ("ratelimit:" ++ id) win]⟩ := by
  rw [RateLimiter.isAllowed, increment_fresh_pos r ("ratelimit:" ++ id) win hwin hl]

theorem increment_fresh_zero (r : Redis) (key : String)
    (hl : r.lookupLive key = none) :
    RedisCache.increment true r false false key 1 (some 0) =
      ⟨.ok (some 1), true, r.withEntry key ⟨.int 1, none⟩, [.bincr key 1]⟩ := by
  simp [RedisCache.increment, incrTry, redisIncr, hl, ttlTruthy]

theorem isAllowed_step_fresh_zero (r : Redis) (id : String) (maxR : Int)
    (hl : r.lookupLive ("ratelimit:" ++ id) = none) :
    RateLimiter.isAllowed true r false false id maxR 0 =
      ⟨.ok (decide ((1 : Int) ≤ maxR)), true,
       r.withEntry ("ratelimit:" ++ id) ⟨.int 1, none⟩,
       [.bincr ("ratelimit:" ++ id) 1]⟩ := by
  rw [RateLimiter.isAllowed, increment_fresh_zero r ("ratelimit:" ++ id) hl]

theorem isAllowedRun_counter (id : String) (maxR win : Int) (k : Nat) :
    ∀ (r : Redis) (c : Int) (topt : Option Int), 1 ≤ c →
      r.store.lookup ("ratelimit:" ++ id) = some ⟨.int c, topt⟩ →
      Entry.liveAt ⟨.int c, topt⟩ r.now = true →
      (isAllowedRun true id maxR win k r).1
          = (List.range k).map (fun i : Nat => decide (c + (i : Int) + 1 ≤ maxR)) ∧
      (isAllowedRun true id maxR win k r).2.store.lookup ("ratelimit:" ++ id)
          = some ⟨.int (c + k), topt⟩ ∧
      (isAllowedRun true id maxR win k r).2.now = r.now := by
  induction k with
  | zero =>
    intro r c topt hc hl hlive
    refine ⟨rfl, ?_, rfl⟩
    simpa using hl
  | succ k ih =>
    intro r c topt hc hl hlive
    rw [isAllowedRun, isAllowed_step r id maxR win c topt (by omega) hl hlive]
    have hlive' : Entry.liveAt ⟨.int (c + 1), topt⟩
        ((r.withEntry ("ratelimit:" ++ id) ⟨.int (c + 1), topt⟩).now) = true := hlive
    obtain ⟨h1, h2, h3⟩ := ih (r.withEntry ("ratelimit:" ++ id) ⟨.int (c + 1), topt⟩)
      (c + 1) topt (by omega)
      (lookup_withEntry_self r ("ratelimit:" ++ id) ⟨.int (c + 1), topt⟩) hlive'
    refine ⟨?_, ?_, h3⟩
    · simp only [h1, List.range_succ_eq_map, List.map_cons, List.map_map]
      congr 1
      · rw [decide_eq_decide]
        push_cast
        omega
      · apply List.map_congr_left
        intro i hi
        simp only [Function.comp_apply]
        rw [decide_eq_decide]
        push_cast
        omega
    · have hcast : (c + ((k : Nat) + 1 : Nat) : Int) = (c + 1) + (k : Int) := by
        push_cast
        omega
      rw [hcast]
      exact h2

/-- C1: with the backend reachable and the counter for the identifier fresh,
for every limit `n ≥ 1` and window `win > 0`, the first `n` calls to
`is_allowed(id, n, win)` made in rapid succession within the window return
`true` and the call number `n + 1` returns `false`. -/
theorem rate_limit_first_n_allowed_then_denied (r : Redis) (id : String) (n : Nat)
    (win : Int) (hn : 1 ≤ n) (hwin : 0 < win)
    (hfresh : r.lookupLive ("ratelimit:" ++ id) = none) :
    (isAllowedRun true id (n : Int) win (n + 1) r).1
      = List.replicate n true ++ [false] := by
  obtain ⟨m, rfl⟩ : ∃ m, n = m + 1 := ⟨n - 1, by omega⟩
  rw [isAllowedRun, isAllowed_step_fresh_pos r id ((m + 1 : Nat) : Int) win hwin hfresh]
  have hlive1 : Entry.liveAt ⟨.int 1, some (r.now + win)⟩
      (((r.withEntry ("ratelimit:" ++ id) ⟨.int 1, none⟩).withEntry ("ratelimit:" ++ id)
        ⟨.int 1, some (r.now + win)⟩).now) = true := by
    simp only [Entry.liveAt, now_withEntry, decide_eq_true_eq]
    omega
  obtain ⟨h1, -, -⟩ := isAllowedRun_counter id ((m + 1 : Nat) : Int) win (m + 1)
    ((r.withEntry ("ratelimit:" ++ id) ⟨.int 1, none⟩).withEntry ("ratelimit:" ++ id)
      ⟨.int 1, some (r.now + win)⟩)
    1 (some (r.now + win)) le_rfl
    (lookup_withEntry_self _ ("ratelimit:" ++ id) ⟨.int 1, some (r.now + win)⟩) hlive1
  simp only [h1]
  rw [List.replicate_succ, List.cons_append]
  congr 1
  · rw [decide_eq_true_eq]
    push_cast
    omega
  rw [List.range_succ, List.map_append]
  congr 1
  · rw [List.eq_replicate_iff]
    refine ⟨by simp, ?_⟩
    intro b hb
    obtain ⟨i, hi, rfl⟩ := List.mem_map.mp hb
    rw [List.mem_range] at hi
    rw [decide_eq_true_eq]
    push_cast
    omega
  · simp only [List.map_cons, List.map_nil]
    have hlast : decide ((1 : Int) + (m : Int) + 1 ≤ ((m + 1 : Nat) : Int)) = false := by
      rw [decide_eq_false_iff_not]
      push_cast
      omega
    rw [hlast]

/-- C1 witness: limit 3, window 60, fresh counter — four rapid calls yield
`[true, true, true, false]`. -/
theorem rate_limit_first_n_allowed_then_denied_witness :
    (isAllowedRun true "user-1" ((3 : Nat) : Int) 60 4 ⟨[], 0⟩).1
      = List.replicate 3 true ++ [false] :=
  rate_limit_first_n_allowed_then_denied ⟨[], 0⟩ "user-1" 3 60 (by decide) (by decide) rfl

/-- C9: `increment` with a falsy ttl (`None` or `0`) never issues an
`EXPIRE` — its only backend command is the `INCRBY` — and consequently
`is_allowed(id, maxR, window_seconds := 0)` creates a counter with no
expiry: after `n + 1` calls from a fresh counter the stored count is
`n + 1` with no expiry, at every later observation instant, so the count
accumulates and the window never resets. -/
theorem falsy_ttl_never_arms_counter_accumulates :
    (∀ (r : Redis) (key : String) (amount : Int) (ttl : Option Int),
        ttlTruthy ttl = false →
        (RedisCache.increment true r false false key amount ttl).calls
          = [.bincr key amount]) ∧
    (∀ (r : Redis) (id : String) (maxR : Int) (n : Nat),
        r.lookupLive ("ratelimit:" ++ id) = none →
        ∀ t : Int,
          (((isAllowedRun true id maxR 0 (n + 1) r).2).atTime t).lookupLive
              ("ratelimit:" ++ id) = some ⟨.int ((n : Int) + 1), none⟩) := by
  constructor
  · intro r key amount ttl htl
    cases h : redisIncr r key amount with
    | error u => simp [RedisCache.increment, incrTry, h]
    | ok p =>
      obtain ⟨v, r2⟩ := p
      simp [RedisCache.increment, incrTry, h, htl]
  · intro r id maxR n hfresh t
    rw [isAllowedRun, isAllowed_step_fresh_zero r id maxR hfresh]
    obtain ⟨-, h2, -⟩ := isAllowedRun_counter id maxR 0 n
      (r.withEntry ("ratelimit:" ++ id) ⟨.int 1, none⟩) 1 none le_rfl
      (lookup_withEntry_self r ("ratelimit:" ++ id) ⟨.int 1, none⟩) rfl
    have hcast : ((1 : Int) + (n : Int)) = (n : Int) + 1 := by omega
    rw [hcast] at h2
    simp [Redis.lookupLive, Redis.atTime, h2, Entry.liveAt]

/-- C9 witness: three `is_allowed` calls with window 0 from a fresh counter
leave the count at 3 with no expiry, still visible at instant 999; and an
`increment` with ttl `None` issues only the `INCRBY`. -/
theorem falsy_ttl_never_arms_counter_accumulates_witness :
    (RedisCache.increment true ⟨[], 0⟩ false false "k" 1 none).calls
      = [.bincr "k" 1] ∧
    (((isAllowedRun true "u" 5 0 3 ⟨[], 0⟩).2).atTime 999).lookupLive "ratelimit:u"
      = some ⟨.int 3, none⟩ :=
  ⟨falsy_ttl_never_arms_counter_accumulates.1 ⟨[], 0⟩ "k" 1 none rfl,
   falsy_ttl_never_arms_counter_accumulates.2 ⟨[], 0⟩ "u" 5 2 rfl 999⟩

/-- C4 amended: for every ttl that is an integer other than `0` (a truthy
ttl), the `EXPIRE` is issued exactly on the increment whose returned value
equals the increment amount; with a positive ttl on a fresh key and the
default amount, the first call returns `1` and arms the expiry at
`now + ttl`, and a second call returns `2` issuing no `EXPIRE` and leaving
the expiry unchanged. (As stated over *every* ttl the claim fails: with
ttl `0` or `None` the creating increment does not arm, see the
counterexample.) -/
theorem ttl_armed_iff_value_equals_amount :
    (∀ (r : Redis) (key : String) (amount t : Int), t ≠ 0 →
        ((RedisCache.increment true r false false key amount (some t)).ret
            = .ok (some amount) ↔
          (RedisCache.increment true r false false key amount (some t)).calls
            = [.bincr key amount, .bexpire key t])) ∧
    (∀ (r : Redis) (key : String) (t : Int), 0 < t →
        r.lookupLive key = none →
        (RedisCache.increment true r false false key 1 (some t)).ret = .ok (some 1) ∧
        (RedisCache.increment true r false false key 1 (some t)).calls
          = [.bincr key 1, .bexpire key t] ∧
        (RedisCache.increment true r false false key 1 (some t)).redis.store.lookup key
          = some ⟨.int 1, some (r.now + t)⟩ ∧
        (RedisCache.increment true
            ((RedisCache.increment true r false false key 1 (some t)).redis)
            false false key 1 (some t)).ret = .ok (some 2) ∧
        (RedisCache.increment true
            ((RedisCache.increment true r false false key 1 (some t)).redis)
            false false key 1 (some t)).calls = [.bincr key 1] ∧
        (RedisCache.increment true
            ((RedisCache.increment true r false false key 1 (some t)).redis)
            false false key 1 (some t)).redis.store.lookup key
          = some ⟨.int 2, some (r.now + t)⟩) := by
  constructor
  · intro r key amount t htne
    have ht' : (t == (0 : Int)) = false := by
      simp only [beq_eq_false_iff_ne, ne_eq]
      omega
    cases h : redisIncr r key amount with
    | error u => simp [RedisCache.increment, incrTry, h]
    | ok p =>
      obtain ⟨v, r2⟩ := p
      cases hv : v == amount with
      | true =>
        have hveq : v = amount := by
          exact beq_iff_eq.mp hv
        subst hveq
        simp [RedisCache.increment, incrTry, h, ttlTruthy, ht', hv]
      | false =>
        have hvne : ¬ v = amount := by
          exact beq_eq_false_iff_ne.mp hv
        simp [RedisCache.increment, incrTry, h, ttlTruthy, ht', hv, hvne]
  · intro r key t ht hfresh
    have hfirst := increment_fresh_pos r key t ht hfresh
    have hlook2 : ((r.withEntry key ⟨.int 1, none⟩).withEntry key
        ⟨.int 1, some (r.now + t)⟩).store.lookup key
          = some ⟨.int 1, some (r.now + t)⟩ :=
      lookup_withEntry_self _ key ⟨.int 1, some (r.now + t)⟩
    have hlive2 : Entry.liveAt ⟨.int 1, some (r.now + t)⟩
        (((r.withEntry key ⟨.int 1, none⟩).withEntry key
          ⟨.int 1, some (r.now + t)⟩).now) = true := by
      simp only [Entry.liveAt, now_withEntry, decide_eq_true_eq]
      omega
    have hsecond := increment_existing
      ((r.withEntry key ⟨.int 1, none⟩).withEntry key ⟨.int 1, some (r.now + t)⟩)
      key 1 1 (some (r.now + t)) (some t) (by decide) hlook2 hlive2
    rw [hfirst]
    refine ⟨rfl, rfl, hlook2, ?_, ?_, ?_⟩
    · rw [hsecond]
      norm_num
    · rw [hsecond]
    · rw [hsecond]
      have hl2 := lookup_withEntry_self
        ((r.withEntry key ⟨.int 1, none⟩).withEntry key ⟨.int 1, some (r.now + t)⟩)
        key ⟨.int (1 + 1), some (r.now + t)⟩
      norm_num at hl2
      exact hl2

/-- C4 amended witness: on a fresh key with ttl 60, the first increment
returns 1 and issues the `EXPIRE` (the two sides of the iff agree), and the
second increment returns 2 without an `EXPIRE`. -/
theorem ttl_armed_iff_value_equals_amount_witness :
    ((RedisCache.increment true ⟨[], 0⟩ false false "k" 1 (some 60)).ret
        = .ok (some 1) ↔
      (RedisCache.increment true ⟨[], 0⟩ false false "k" 1 (some 60)).calls
        = [.bincr "k" 1, .bexpire "k" 60]) ∧
    (RedisCache.increment true ⟨[], 0⟩ false false "k" 1 (some 60)).ret
      = .ok (some 1) ∧
    (RedisCache.increment true
        ((RedisCache.increment true ⟨[], 0⟩ false false "k" 1 (some 60)).redis)
        false false "k" 1 (some 60)).ret = .ok (some 2) :=
  ⟨ttl_armed_iff_value_equals_amount.1 ⟨[], 0⟩ "k" 1 60 (by decide),
   (ttl_armed_iff_value_equals_amount.2 ⟨[], 0⟩ "k" 60 (by decide) rfl).1,
   (ttl_armed_iff_value_equals_amount.2 ⟨[], 0⟩ "k" 60 (by decide) rfl).2.2.2.1⟩

/-- C10 amended: with the backend reachable and a positive ttl, `set`
succeeds exactly when `json.dumps(value, default=str)` succeeds — values
with only basic-type dict keys serialize, while a non-basic dict key (for
example a tuple) still makes the write fail, so the serialization-failure
branch is reachable; and a non-JSON object in value position is coerced to
its `str()` form, so a later `get` returns the coerced string rather than a
value deep-equal to the original. -/
theorem set_default_str_coercion :
    (∀ (r : Redis) (key : String) (value : PyVal) (ttl : Int), 0 < ttl →
        ((RedisCache.set true r false key value ttl).ret = .ok true ↔
          ∃ j, dumps value = .ok j)) ∧
    (∀ (r : Redis) (key : String) (s : String) (ttl : Int), 0 < ttl →
        (RedisCache.set true r false key (.objV s) ttl).ret = .ok true ∧
        (RedisCache.get true ((RedisCache.set true r false key (.objV s) ttl).redis)
            false key).ret = .ok (some (.strV s))) := by
  have hset : ∀ (r : Redis) (key : String) (value : PyVal) (ttl : Int) (j : JVal),
      0 < ttl → dumps value = .ok j →
      RedisCache.set true r false key value ttl =
        ⟨.ok true, true, r.withEntry key ⟨.json j, some (r.now + ttl)⟩,
         [.bsetex key ttl j]⟩ := by
    intro r key value ttl j ht hj
    have hnle : ¬ ttl ≤ 0 := by omega
    simp [RedisCache.set, setTry, hj, redisSetex, hnle]
  constructor
  · intro r key value ttl ht
    cases hj : dumps value with
    | error u =>
      constructor
      · intro hcontra
        rw [RedisCache.set] at hcontra
        simp [setTry, hj] at hcontra
      · intro hex
        obtain ⟨j, hjj⟩ := hex
        exact Except.noConfusion hjj
    | ok j =>
      constructor
      · intro _
        exact ⟨j, rfl⟩
      · intro _
        rw [hset r key value ttl j ht hj]
  · intro r key s ttl ht
    have hco : dumps (.objV s) = .ok (.str s) := rfl
    rw [hset r key (.objV s) ttl (.str s) ht hco]
    refine ⟨rfl, ?_⟩
    have hlive : Entry.liveAt ⟨.json (.str s), some (r.now + ttl)⟩
        ((r.withEntry key ⟨.json (.str s), some (r.now + ttl)⟩).now) = true := by
      simp only [Entry.liveAt, now_withEntry, decide_eq_true_eq]
      omega
    simp [RedisCache.get, getTry, Redis.lookupLive, lookup_withEntry_self, hlive,
          jsonToPy]

/-- C10 amended witness: a `datetime`-like object with `str()` form
`"2024-01-01"` is accepted by `set` (its serialization succeeds) and read
back as the plain string, not the original object. -/
theorem set_default_str_coercion_witness :
    ((RedisCache.set true ⟨[], 0⟩ false "k" (.objV "2024-01-01") 300).ret
        = .ok true ↔ ∃ j, dumps (.objV "2024-01-01") = .ok j) ∧
    (RedisCache.get true ((RedisCache.set true ⟨[], 0⟩ false "k"
        (.objV "2024-01-01") 300).redis) false "k").ret
      = .ok (some (.strV "2024-01-01")) :=
  ⟨set_default_str_coercion.1 ⟨[], 0⟩ "k" (.objV "2024-01-01") 300 (by decide),
   (set_default_str_coercion.2 ⟨[], 0⟩ "k" "2024-01-01" 300 (by decide)).2⟩
